import Mathlib

/-!
Verification of the C-- compiler (Rust sources under src/src/compiler/)
against its natural-language specification.

Every definition below is a shallow embedding of the corresponding Rust
item, keeping the source's name and structure.  Strings are modelled as
`List Char` where the Rust code walks a `&str`; `i32`/`u32` values are
modelled as `Int`/`Nat` (the only place the 32-bit bound matters is the
explicit `i32` range check of `parse_constant`, which is embedded
explicitly); `Result<T, E>` becomes `Except E T`.
-/

/-! ## Lexer: src/src/compiler/lexer/tokens.rs -/

/-- Token enum from lexer/tokens.rs. -/
inductive Token where
  | Identifier (name : String)
  | Constant (value : Int)
  | IntKeyword
  | VoidKeyword
  | ReturnKeyword
  | OpenParen
  | CloseParen
  | OpenBrace
  | CloseBrace
  | Semicolon
  | Tilde
  | Hyphen
  | DoubleHyphen
  | Plus
  | Asterisk
  | ForwardSlash
  | Percent
  | ExclamationMark
  | DoubleAmpersand
  | DoublePipe
  | DoubleEqual
  | ExclamationEqual
  | LessThan
  | GreaterThan
  | LessThanEqual
  | GreaterThanEqual
deriving DecidableEq, Repr

/-- TokenType enum from lexer/tokens.rs (the `kind` projection's codomain). -/
inductive TokenType where
  | Identifier
  | Constant
  | IntKeyword
  | VoidKeyword
  | ReturnKeyword
  | OpenParen
  | CloseParen
  | OpenBrace
  | CloseBrace
  | Semicolon
  | Tilde
  | Hyphen
  | DoubleHyphen
  | Plus
  | Asterisk
  | ForwardSlash
  | Percent
  | ExclamationMark
  | DoubleAmpersand
  | DoublePipe
  | DoubleEqual
  | ExclamationEqual
  | LessThan
  | GreaterThan
  | LessThanEqual
  | GreaterThanEqual
deriving DecidableEq, Repr

/-- `Token::kind` from lexer/tokens.rs. -/
def Token.kind : Token → TokenType
  | .Identifier _ => .Identifier
  | .Constant _ => .Constant
  | .IntKeyword => .IntKeyword
  | .VoidKeyword => .VoidKeyword
  | .ReturnKeyword => .ReturnKeyword
  | .OpenParen => .OpenParen
  | .CloseParen => .CloseParen
  | .OpenBrace => .OpenBrace
  | .CloseBrace => .CloseBrace
  | .Semicolon => .Semicolon
  | .Tilde => .Tilde
  | .Hyphen => .Hyphen
  | .DoubleHyphen => .DoubleHyphen
  | .Plus => .Plus
  | .Asterisk => .Asterisk
  | .ForwardSlash => .ForwardSlash
  | .Percent => .Percent
  | .ExclamationMark => .ExclamationMark
  | .DoubleAmpersand => .DoubleAmpersand
  | .DoublePipe => .DoublePipe
  | .DoubleEqual => .DoubleEqual
  | .ExclamationEqual => .ExclamationEqual
  | .LessThan => .LessThan
  | .GreaterThan => .GreaterThan
  | .LessThanEqual => .LessThanEqual
  | .GreaterThanEqual => .GreaterThanEqual

/-- `Token::is_binary_operator` from lexer/tokens.rs. -/
def Token.is_binary_operator : Token → Bool
  | .Plus => true
  | .Hyphen => true
  | .Asterisk => true
  | .ForwardSlash => true
  | .Percent => true
  | .DoubleAmpersand => true
  | .DoublePipe => true
  | .DoubleEqual => true
  | .ExclamationEqual => true
  | .LessThan => true
  | .GreaterThan => true
  | .LessThanEqual => true
  | .GreaterThanEqual => true
  | _ => false

/-- `Token::get_binary_operator_precedence` from lexer/tokens.rs.
The Rust function returns `Result<u32, String>`; the error string is
irrelevant to control flow, so the error payload is dropped here. -/
def Token.get_binary_operator_precedence : Token → Except Unit Nat
  | .Asterisk => .ok 50
  | .ForwardSlash => .ok 50
  | .Percent => .ok 50
  | .Plus => .ok 45
  | .Hyphen => .ok 45
  | .LessThan => .ok 35
  | .GreaterThan => .ok 35
  | .LessThanEqual => .ok 35
  | .GreaterThanEqual => .ok 35
  | .DoubleEqual => .ok 30
  | .ExclamationEqual => .ok 30
  | .DoubleAmpersand => .ok 10
  | .DoublePipe => .ok 5
  | _ => .error ()

/-! ## Lexer: src/src/compiler/lexer/errors.rs and mod.rs -/

/-- LexerError enum from lexer/errors.rs. -/
inductive LexerError where
  | UnexpectedCharacter (found : Char) (expected : Char)
  | NonmatchingPattern (found : String)
  | InvalidConstant (found : String)
  | NoParserMatched
  | EmptyInputString
deriving DecidableEq, Repr

/-- `split_first_char` from lexer/mod.rs. -/
def split_first_char : List Char → Option (Char × List Char)
  | [] => none
  | c :: rest => some (c, rest)

/-- `parse_character` from lexer/mod.rs. -/
def parse_character (input_str : List Char) (target_char : Char) :
    Except LexerError (List Char × Char) :=
  match input_str with
  | [] => .error .EmptyInputString
  | next_char :: rest =>
    if next_char = target_char then .ok (rest, next_char)
    else .error (.UnexpectedCharacter next_char target_char)

/-- `parse_semicolon` from lexer/mod.rs. -/
def parse_semicolon (input_str : List Char) : Except LexerError (List Char × Token) :=
  match parse_character input_str ';' with
  | .ok (remaining_str, _) => .ok (remaining_str, .Semicolon)
  | .error err => .error err

/-- `parse_open_brace` from lexer/mod.rs.  The target brace character is
written with an escape. -/
def parse_open_brace (input_str : List Char) : Except LexerError (List Char × Token) :=
  match parse_character input_str '\x7b' with
  | .ok (remaining_str, _) => .ok (remaining_str, .OpenBrace)
  | .error err => .error err

/-- `parse_close_brace` from lexer/mod.rs. -/
def parse_close_brace (input_str : List Char) : Except LexerError (List Char × Token) :=
  match parse_character input_str '\x7d' with
  | .ok (remaining_str, _) => .ok (remaining_str, .CloseBrace)
  | .error err => .error err

/-- `parse_open_paren` from lexer/mod.rs. -/
def parse_open_paren (input_str : List Char) : Except LexerError (List Char × Token) :=
  match parse_character input_str '(' with
  | .ok (remaining_str, _) => .ok (remaining_str, .OpenParen)
  | .error err => .error err

/-- `parse_close_paren` from lexer/mod.rs. -/
def parse_close_paren (input_str : List Char) : Except LexerError (List Char × Token) :=
  match parse_character input_str ')' with
  | .ok (remaining_str, _) => .ok (remaining_str, .CloseParen)
  | .error err => .error err

/-- A regex `\w` word character, `[0-9a-zA-Z_]` (the claims only involve
ASCII input, so the ASCII classes are faithful). -/
def is_word_char (c : Char) : Bool := c.isAlphanum || c = '_'

/-- `parse_identifier_or_keyword` from lexer/mod.rs: anchored regex
`[a-zA-Z_]\w*\b`, keyword dispatch on the exact match. -/
def parse_identifier_or_keyword (input_str : List Char) :
    Except LexerError (List Char × Token) :=
  match input_str with
  | c :: _ =>
    if c.isAlpha || c = '_' then
      let matched_str := input_str.takeWhile is_word_char
      let remaining_str := input_str.dropWhile is_word_char
      let token : Token :=
        if matched_str = ("int").toList then .IntKeyword
        else if matched_str = ("void").toList then .VoidKeyword
        else if matched_str = ("return").toList then .ReturnKeyword
        else .Identifier (String.mk matched_str)
      .ok (remaining_str, token)
    else .error (.NonmatchingPattern (String.mk input_str))
  | [] => .error (.NonmatchingPattern (String.mk input_str))

/-- Decimal value of a digit run. -/
def digits_to_nat (cs : List Char) : Nat :=
  cs.foldl (fun acc c => 10 * acc + (c.toNat - ('0').toNat)) 0

/-- `parse_constant` from lexer/mod.rs: anchored regex `[0-9]+\b`, then
`str::parse::<i32>`, which fails when the (unsigned) literal exceeds
`2^31 - 1`.  The `\b` makes the whole regex fail when a word character
follows the digit run (`123abc` is not a constant). -/
def parse_constant (input_str : List Char) : Except LexerError (List Char × Token) :=
  let matched_str := input_str.takeWhile Char.isDigit
  if matched_str.isEmpty then .error (.NonmatchingPattern (String.mk input_str))
  else
    let remaining_str := input_str.dropWhile Char.isDigit
    let boundary : Bool :=
      match remaining_str with
      | c :: _ => !(is_word_char c)
      | [] => true
    if boundary then
      let n := digits_to_nat matched_str
      if n ≤ 2147483647 then .ok (remaining_str, .Constant (n : Int))
      else .error (.InvalidConstant (String.mk matched_str))
    else .error (.NonmatchingPattern (String.mk input_str))

/-- The `parsers` vector of `tokenize` (lexer/mod.rs line 49), in source
order.  Note: no parser for any operator token (`~ - -- + * / % !` and
friends) is registered. -/
def lexer_parsers : List (List Char → Except LexerError (List Char × Token)) :=
  [parse_identifier_or_keyword, parse_constant, parse_semicolon,
   parse_open_brace, parse_close_brace, parse_open_paren, parse_close_paren]

/-- The inner `for parser in parsers.iter()` loop of `tokenize`: each
parser is tried in order on the current stream; a success pushes the token
and replaces the stream, a failure leaves both unchanged (the Rust
`continue` only advances the `for` loop). -/
def run_lexer_pass :
    List (List Char → Except LexerError (List Char × Token)) →
    List Char → List Token → List Char × List Token
  | [], s, acc => (s, acc)
  | p :: ps, s, acc =>
    match p s with
    | .ok (remaining_str, token) => run_lexer_pass ps remaining_str (acc ++ [token])
    | .error _ => run_lexer_pass ps s acc

/-- Each registered parser consumes at least one character on success, so
one pass never grows the stream. -/
theorem run_lexer_pass_length_le (ps : List (List Char → Except LexerError (List Char × Token)))
    (hps : ∀ p ∈ ps, ∀ s r t, p s = .ok (r, t) → r.length ≤ s.length)
    (s : List Char) (acc : List Token) :
    (run_lexer_pass ps s acc).1.length ≤ s.length := by
  induction ps generalizing s acc with
  | nil => simp [run_lexer_pass]
  | cons p ps ih =>
    simp only [run_lexer_pass]
    cases hp : p s with
    | ok v =>
      obtain ⟨r, t⟩ := v
      have h1 : r.length ≤ s.length := hps p (by simp) s r t hp
      exact le_trans (ih (fun q hq => hps q (by simp [hq])) r (acc ++ [t])) h1
    | error e => exact ih (fun q hq => hps q (by simp [hq])) s acc

/-- `tokenize` from lexer/mod.rs, lines 46-72.  The Rust loop trims
whitespace, runs the parser pass, and repeats until the stream is empty;
when a nonempty stream survives a whole pass unchanged, every later
iteration recomputes the identical state, so the Rust function never
returns.  That divergence is modelled as `none`.  The recursion is
structural on a fuel argument so that the kernel can evaluate it; every
recursive call strictly shrinks the stream, so the fuel chosen by
`tokenize` (initial length + 1) can never run out and the fuel-exhaustion
branch (also `none`) is unreachable. -/
def tokenize_loop : Nat → List Char → List Token → Option (List Token)
  | 0, _, _ => none
  | fuel + 1, string_stream, token_vec =>
    let trimmed := string_stream.dropWhile Char.isWhitespace
    if trimmed.isEmpty then some token_vec
    else
      let step := run_lexer_pass lexer_parsers trimmed []
      if step.1.length < string_stream.length then
        tokenize_loop fuel step.1 (token_vec ++ step.2)
      else none

/-- `tokenize` entry point (lexer/mod.rs).  `some` is the returned token
vector; `none` marks an input on which the Rust loop never terminates. -/
def tokenize (input_str : List Char) : Option (List Token) :=
  tokenize_loop (input_str.length + 1) input_str []

/-! ## Claims C1 and C3 (lexer) -/

/-- Claim C1.  The claim states that `tokenize` recognizes the full token
alphabet including the operator tokens, and that an input beginning with
`--` yields `DoubleHyphen` as the first token.  On the code this fails:
`tokenize` registers no parser for any operator token, so on the input
`--` no parser ever matches, the loop makes no progress and the Rust
function never returns (modelled as `none`).  The first conjunct is a
control showing the model agrees with the function's own doc-test-style
behaviour on operator-free input. -/
theorem C1_tokenize_has_no_operator_tokens :
    tokenize (String.toList ("return 1;"))
      = some [.ReturnKeyword, .Constant 1, .Semicolon] ∧
    tokenize (String.toList ("--")) = none := by
  constructor
  · decide
  · decide

/-- Claim C3.  The claim states that `tokenize` always terminates and
surfaces a structured lex error for an unknown character or an
out-of-range integer literal, with `2^31 - 1` lexing and `2^31` failing
with an invalid-literal error.  On the code: `2147483647` does lex, and
`parse_constant` does produce the structured `InvalidConstant` error for
`2147483648`, but `tokenize` discards every parser error (`if let Ok`),
so on `2147483648` it makes no progress and never returns (`none`)
instead of failing with the error. -/
theorem C3_tokenize_swallows_lex_errors :
    tokenize (String.toList ("2147483647")) = some [.Constant 2147483647] ∧
    parse_constant (String.toList ("2147483648"))
      = .error (.InvalidConstant ("2147483648")) ∧
    tokenize (String.toList ("2147483648")) = none := by
  refine ⟨by decide, rfl, by decide⟩

/-! ## Parser: src/src/compiler/parser/cmm_ast.rs -/

/-- CmmUnaryOperator from parser/cmm_ast.rs. -/
inductive CmmUnaryOperator where
  | Complement
  | Negate
  | Not
deriving DecidableEq, Repr

/-- CmmBinaryOperator from parser/cmm_ast.rs. -/
inductive CmmBinaryOperator where
  | Add
  | Subtract
  | Multiply
  | Divide
  | Remainder
  | And
  | Or
  | Equal
  | NotEqual
  | GreaterThan
  | LessThan
  | GreaterThanEqual
  | LessThanEqual
deriving DecidableEq, Repr

/-- CmmExpression from parser/cmm_ast.rs. -/
inductive CmmExpression where
  | IntegerConstant (value : Int)
  | Unary (operator : CmmUnaryOperator) (expression : CmmExpression)
  | Binary (operator : CmmBinaryOperator) (left : CmmExpression) (right : CmmExpression)
deriving DecidableEq, Repr

/-- CmmStatement from parser/cmm_ast.rs. -/
inductive CmmStatement where
  | Return (expression : CmmExpression)
deriving DecidableEq, Repr

/-- CmmFunction from parser/cmm_ast.rs. -/
inductive CmmFunction where
  | Function (identifier : String) (body : CmmStatement)
deriving DecidableEq, Repr

/-- CmmAst from parser/cmm_ast.rs. -/
inductive CmmAst where
  | Program (function : CmmFunction)
deriving DecidableEq, Repr

/-! ## Parser: src/src/compiler/parser/errors.rs -/

/-- TokenTypeOption from parser/errors.rs. -/
inductive TokenTypeOption where
  | One (t : TokenType)
  | Many (ts : List TokenType)
deriving DecidableEq, Repr

/-- ParserError from parser/errors.rs. -/
inductive ParserError where
  | UnexpectedEndOfInput
  | UnexpectedToken (expected : TokenTypeOption) (actual : TokenType)
  | UnexpectedTrailingTokens (found : List Token)
deriving DecidableEq, Repr

/-! ## Parser: src/src/compiler/parser/mod.rs

The Rust `Parser` struct owns the token vector and a `position` cursor
that only ever advances; the embedding passes the not-yet-consumed suffix
of the token list instead, which is the same state.  The mutually
recursive expression functions take a fuel argument so recursion is
structural; every theorem below instantiates or quantifies the fuel
large enough that the fuel-exhaustion branch (an `UnexpectedEndOfInput`
error, never reached on the inputs considered) does not fire. -/

/-- `consume_token` from parser/mod.rs: returns the next token and the
advanced stream. -/
def consume_token : List Token → Except ParserError (Token × List Token)
  | [] => .error .UnexpectedEndOfInput
  | token :: rest => .ok (token, rest)

/-- `peek_token` from parser/mod.rs: returns the next token without
advancing. -/
def peek_token : List Token → Except ParserError Token
  | [] => .error .UnexpectedEndOfInput
  | token :: _ => .ok token

/-- `expect_token` from parser/mod.rs. -/
def expect_token (expected_type : TokenType) (tokens : List Token) :
    Except ParserError (List Token) :=
  match consume_token tokens with
  | .error e => .error e
  | .ok (actual, rest) =>
    if actual.kind = expected_type then .ok rest
    else .error (.UnexpectedToken (.One expected_type) actual.kind)

/-- `parse_identifier` from parser/mod.rs. -/
def parse_identifier (tokens : List Token) :
    Except ParserError (String × List Token) :=
  match consume_token tokens with
  | .error e => .error e
  | .ok (.Identifier identifier, rest) => .ok (identifier, rest)
  | .ok (token, _) => .error (.UnexpectedToken (.One .Identifier) token.kind)

/-- `parse_constant_integer_factor` from parser/mod.rs. -/
def parse_constant_integer_factor (tokens : List Token) :
    Except ParserError (CmmExpression × List Token) :=
  match consume_token tokens with
  | .error e => .error e
  | .ok (.Constant value, rest) => .ok (.IntegerConstant value, rest)
  | .ok (token, _) => .error (.UnexpectedToken (.One .Constant) token.kind)

/-- `parse_unary_operator` from parser/mod.rs.  Note it accepts
`ExclamationMark` (logical not). -/
def parse_unary_operator (tokens : List Token) :
    Except ParserError (CmmUnaryOperator × List Token) :=
  match consume_token tokens with
  | .error e => .error e
  | .ok (.Hyphen, rest) => .ok (.Negate, rest)
  | .ok (.Tilde, rest) => .ok (.Complement, rest)
  | .ok (.ExclamationMark, rest) => .ok (.Not, rest)
  | .ok (token, _) =>
    .error (.UnexpectedToken (.Many [.Hyphen, .Tilde, .ExclamationMark]) token.kind)

/-- `parse_binary_operator` from parser/mod.rs. -/
def parse_binary_operator (tokens : List Token) :
    Except ParserError (CmmBinaryOperator × List Token) :=
  match consume_token tokens with
  | .error e => .error e
  | .ok (.Plus, rest) => .ok (.Add, rest)
  | .ok (.Hyphen, rest) => .ok (.Subtract, rest)
  | .ok (.Asterisk, rest) => .ok (.Multiply, rest)
  | .ok (.ForwardSlash, rest) => .ok (.Divide, rest)
  | .ok (.Percent, rest) => .ok (.Remainder, rest)
  | .ok (.DoubleAmpersand, rest) => .ok (.And, rest)
  | .ok (.DoublePipe, rest) => .ok (.Or, rest)
  | .ok (.DoubleEqual, rest) => .ok (.Equal, rest)
  | .ok (.ExclamationEqual, rest) => .ok (.NotEqual, rest)
  | .ok (.LessThan, rest) => .ok (.LessThan, rest)
  | .ok (.GreaterThan, rest) => .ok (.GreaterThan, rest)
  | .ok (.LessThanEqual, rest) => .ok (.LessThanEqual, rest)
  | .ok (.GreaterThanEqual, rest) => .ok (.GreaterThanEqual, rest)
  | .ok (token, _) =>
    .error (.UnexpectedToken
      (.Many [.Plus, .Hyphen, .Asterisk, .ForwardSlash, .Percent,
              .DoubleAmpersand, .DoublePipe, .DoubleEqual, .ExclamationEqual,
              .LessThan, .GreaterThan, .LessThanEqual, .GreaterThanEqual])
      token.kind)

/-- The inline precedence computation of `parse_expression`
(parser/mod.rs lines 160-163):
`get_binary_operator_precedence().map(|x| x as i32).unwrap_or(-1)`. -/
def token_precedence_i32 (token : Token) : Int :=
  match token.get_binary_operator_precedence with
  | .ok p => (p : Int)
  | .error _ => -1

mutual

/-- `parse_factor` from parser/mod.rs lines 191-207.  Dispatches on the
peeked token: `Constant`, `Hyphen | Tilde` (note: not `ExclamationMark`),
`OpenParen`; everything else is an `UnexpectedToken` error.  The bodies
of the source's `parse_unary_factor` and
`parse_parenthesized_expression` helpers are inlined into their arms so
that the mutual recursion is structural on the fuel. -/
def parse_factor : Nat → List Token → Except ParserError (CmmExpression × List Token)
  | 0, _ => .error .UnexpectedEndOfInput
  | fuel + 1, tokens =>
    match peek_token tokens with
    | .error e => .error e
    | .ok token =>
      match token with
      | .Constant _ => parse_constant_integer_factor tokens
      | .Hyphen | .Tilde =>
        -- `parse_unary_factor` from parser/mod.rs
        match parse_unary_operator tokens with
        | .error e => .error e
        | .ok (operator, rest) =>
          match parse_factor fuel rest with
          | .error e => .error e
          | .ok (inner_factor, rest2) => .ok (.Unary operator inner_factor, rest2)
      | .OpenParen =>
        -- `parse_parenthesized_expression` from parser/mod.rs
        match expect_token .OpenParen tokens with
        | .error e => .error e
        | .ok rest =>
          match parse_expression fuel 0 rest with
          | .error e => .error e
          | .ok (expression, rest2) =>
            match expect_token .CloseParen rest2 with
            | .error e => .error e
            | .ok rest3 => .ok (expression, rest3)
      | _ => .error (.UnexpectedToken
          (.Many [.Constant, .Hyphen, .Tilde, .OpenParen]) token.kind)

/-- `parse_expression` from parser/mod.rs lines 151-179 (precedence
climbing).  After the leading factor it immediately peeks for a possible
binary operator, so a stream that ends right after the factor produces
`UnexpectedEndOfInput`. -/
def parse_expression : Nat → Nat → List Token → Except ParserError (CmmExpression × List Token)
  | 0, _, _ => .error .UnexpectedEndOfInput
  | fuel + 1, min_precedence, tokens =>
    match parse_factor fuel tokens with
    | .error e => .error e
    | .ok (left, rest) =>
      match peek_token rest with
      | .error e => .error e
      | .ok next_token => parse_expression_loop fuel min_precedence left next_token rest

/-- The `loop` body of `parse_expression`: break when the peeked token is
not a binary operator or binds weaker than `min_precedence`; otherwise
consume the operator, parse the right operand at precedence + 1
(left-associativity) and continue with the grown `left`. -/
def parse_expression_loop (fuel : Nat) (min_precedence : Nat) (left : CmmExpression)
    (next_token : Token) (tokens : List Token) :
    Except ParserError (CmmExpression × List Token) :=
  match fuel with
  | 0 => .error .UnexpectedEndOfInput
  | fuel + 1 =>
    if next_token.is_binary_operator = false then .ok (left, tokens)
    else
      let next_token_precedence := token_precedence_i32 next_token
      if next_token_precedence < (min_precedence : Int) then .ok (left, tokens)
      else
        match parse_binary_operator tokens with
        | .error e => .error e
        | .ok (operator, rest) =>
          match parse_expression fuel (next_token_precedence + 1).toNat rest with
          | .error e => .error e
          | .ok (right, rest2) =>
            match peek_token rest2 with
            | .error e => .error e
            | .ok next_token2 =>
              parse_expression_loop fuel min_precedence
                (.Binary operator left right) next_token2 rest2

end

/-- `parse_statement` from parser/mod.rs. -/
def parse_statement (fuel : Nat) (tokens : List Token) :
    Except ParserError (CmmStatement × List Token) :=
  match expect_token .ReturnKeyword tokens with
  | .error e => .error e
  | .ok rest =>
    match parse_expression fuel 0 rest with
    | .error e => .error e
    | .ok (expression, rest2) =>
      match expect_token .Semicolon rest2 with
      | .error e => .error e
      | .ok rest3 => .ok (.Return expression, rest3)

/-- `parse_function` from parser/mod.rs. -/
def parse_function (fuel : Nat) (tokens : List Token) :
    Except ParserError (CmmFunction × List Token) :=
  match expect_token .IntKeyword tokens with
  | .error e => .error e
  | .ok r1 =>
    match parse_identifier r1 with
    | .error e => .error e
    | .ok (identifier, r2) =>
      match expect_token .OpenParen r2 with
      | .error e => .error e
      | .ok r3 =>
        match expect_token .VoidKeyword r3 with
        | .error e => .error e
        | .ok r4 =>
          match expect_token .CloseParen r4 with
          | .error e => .error e
          | .ok r5 =>
            match expect_token .OpenBrace r5 with
            | .error e => .error e
            | .ok r6 =>
              match parse_statement fuel r6 with
              | .error e => .error e
              | .ok (statement, r7) =>
                match expect_token .CloseBrace r7 with
                | .error e => .error e
                | .ok r8 => .ok (.Function identifier statement, r8)

/-- `parse_ast` from parser/mod.rs: parses the function and rejects
trailing tokens. -/
def parse_ast (fuel : Nat) (tokens : List Token) : Except ParserError CmmAst :=
  match parse_function fuel tokens with
  | .error e => .error e
  | .ok (function, rest) =>
    match rest with
    | [] => .ok (.Program function)
    | _ => .error (.UnexpectedTrailingTokens rest)

/-! ## Claims C4, C9, C10, C7 (parser) -/

/-- Claim C4.  The claim states that a factor may begin with any of
`- ~ !`, so `ExclamationMark` followed by a factor parses to
`Unary(Not, factor)`.  On the code this fails: `parse_factor` only
dispatches on `Constant`, `Hyphen | Tilde` and `OpenParen`, so
`ExclamationMark` falls into the error arm — even though
`parse_unary_operator` (second conjunct) does map `ExclamationMark` to
`Not` and is simply never reached with it. -/
theorem C4_factor_rejects_exclamation_mark :
    parse_factor 2 [.ExclamationMark, .Constant 1]
      = .error (.UnexpectedToken
          (.Many [.Constant, .Hyphen, .Tilde, .OpenParen]) .ExclamationMark) ∧
    parse_unary_operator [.ExclamationMark] = .ok (.Not, []) :=
  ⟨rfl, rfl⟩

/-- Claim C9, counterexample to the first reading.  `--x` at factor
position does not parse as `Unary(Negate, Unary(Negate, x))`: the parse
is an `UnexpectedToken` error. -/
theorem C9_counterexample_no_double_negate :
    parse_factor 4 [.DoubleHyphen, .Constant 1]
      = .error (.UnexpectedToken
          (.Many [.Constant, .Hyphen, .Tilde, .OpenParen]) .DoubleHyphen) ∧
    parse_factor 4 [.DoubleHyphen, .Constant 1]
      ≠ .ok (.Unary .Negate (.Unary .Negate (.IntegerConstant 1)), []) := by
  refine ⟨rfl, ?_⟩
  intro h
  rw [show parse_factor 4 [.DoubleHyphen, .Constant 1]
      = .error (.UnexpectedToken
          (.Many [.Constant, .Hyphen, .Tilde, .OpenParen]) .DoubleHyphen) from rfl] at h
  exact Except.noConfusion h

/-- Claim C9, amended.  `DoubleHyphen` is not a factor-starter: a factor
beginning with `DoubleHyphen` is rejected with `UnexpectedToken`
(expected one of Constant, Hyphen, Tilde, OpenParen), whatever follows. -/
theorem C9_double_hyphen_factor_rejected (fuel : Nat) (rest : List Token) :
    parse_factor (fuel + 1) (.DoubleHyphen :: rest)
      = .error (.UnexpectedToken
          (.Many [.Constant, .Hyphen, .Tilde, .OpenParen]) .DoubleHyphen) := by
  simp [parse_factor, peek_token, Token.kind]

/-! ### Claim C10 (parser lookahead) -/


/-- `parse_factor` on an empty stream always reports end of input. -/
theorem parse_factor_nil (fuel : Nat) :
    parse_factor fuel [] = .error .UnexpectedEndOfInput := by
  cases fuel with
  | zero => rfl
  | succ f => rfl

/-- `parse_expression` on an empty stream always reports end of input. -/
theorem parse_expression_nil (fuel min_precedence : Nat) :
    parse_expression fuel min_precedence [] = .error .UnexpectedEndOfInput := by
  cases fuel with
  | zero => rfl
  | succ f => simp [parse_expression, parse_factor_nil, peek_token]

/-- A successful `parse_unary_operator` consumes exactly the head token,
and its result does not depend on the tail. -/
theorem parse_unary_operator_shape (x : Token) (xs rest : List Token)
    (op : CmmUnaryOperator) (h : parse_unary_operator (x :: xs) = .ok (op, rest)) :
    rest = xs ∧ ∀ ys, parse_unary_operator (x :: ys) = .ok (op, ys) := by
  cases x <;> simp_all [parse_unary_operator, consume_token]

/-- A successful `parse_binary_operator` consumes exactly the head token,
and its result does not depend on the tail. -/
theorem parse_binary_operator_shape (x : Token) (xs rest : List Token)
    (op : CmmBinaryOperator) (h : parse_binary_operator (x :: xs) = .ok (op, rest)) :
    rest = xs ∧ ∀ ys, parse_binary_operator (x :: ys) = .ok (op, ys) := by
  cases x <;> simp_all [parse_binary_operator, consume_token]

/-- A successful `parse_constant_integer_factor` consumes exactly the
head token, and its result does not depend on the tail. -/
theorem parse_constant_integer_factor_shape (x : Token) (xs rest : List Token)
    (e : CmmExpression) (h : parse_constant_integer_factor (x :: xs) = .ok (e, rest)) :
    rest = xs ∧ ∀ ys, parse_constant_integer_factor (x :: ys) = .ok (e, ys) := by
  cases x <;> simp_all [parse_constant_integer_factor, consume_token]

/-- A successful `expect_token` consumes exactly one matching head token,
and succeeds on the same head with any tail. -/
theorem expect_token_shape (expected_type : TokenType) (toks rest : List Token)
    (h : expect_token expected_type toks = .ok rest) :
    ∃ c, toks = c :: rest ∧ c.kind = expected_type ∧
      ∀ ys, expect_token expected_type (c :: ys) = .ok ys := by
  cases toks with
  | nil => simp [expect_token, consume_token] at h
  | cons c cs =>
    by_cases hk : c.kind = expected_type
    · simp only [expect_token, consume_token, hk, if_pos] at h
      refine ⟨c, ?_, hk, fun ys => ?_⟩
      · simp_all
      · simp [expect_token, consume_token, hk]
    · simp [expect_token, consume_token, hk] at h

/-- On success, each parser returns a suffix of its input stream. -/
theorem parser_consumes_suffix (fuel : Nat) :
    (∀ toks e rest, parse_factor fuel toks = .ok (e, rest) → rest <:+ toks) ∧
    (∀ min_precedence toks e rest,
      parse_expression fuel min_precedence toks = .ok (e, rest) → rest <:+ toks) ∧
    (∀ min_precedence left nt toks e rest,
      parse_expression_loop fuel min_precedence left nt toks = .ok (e, rest) →
        rest <:+ toks) := by
  induction fuel with
  | zero =>
    refine ⟨fun toks e rest h => ?_, fun m toks e rest h => ?_,
            fun m l nt toks e rest h => ?_⟩ <;>
      simp [parse_factor, parse_expression, parse_expression_loop] at h
  | succ f ih =>
    obtain ⟨ihf, ihe, ihl⟩ := ih
    refine ⟨fun toks e rest h => ?_, fun m toks e rest h => ?_,
            fun m l nt toks e rest h => ?_⟩
    · -- parse_factor (f+1)
      cases toks with
      | nil => simp [parse_factor, peek_token] at h
      | cons x xs =>
        cases x with
        | Constant v =>
          simp [parse_factor, peek_token, parse_constant_integer_factor,
                consume_token] at h
          rw [← h.2]
          exact List.suffix_cons _ _
        | Hyphen =>
          simp only [parse_factor, peek_token, parse_unary_operator,
                     consume_token] at h
          cases hf : parse_factor f xs with
          | error err => rw [hf] at h; simp at h
          | ok pr =>
            obtain ⟨inner, r2⟩ := pr
            rw [hf] at h
            simp at h
            rw [← h.2]
            exact (ihf xs inner r2 hf).trans (List.suffix_cons _ _)
        | Tilde =>
          simp only [parse_factor, peek_token, parse_unary_operator,
                     consume_token] at h
          cases hf : parse_factor f xs with
          | error err => rw [hf] at h; simp at h
          | ok pr =>
            obtain ⟨inner, r2⟩ := pr
            rw [hf] at h
            simp at h
            rw [← h.2]
            exact (ihf xs inner r2 hf).trans (List.suffix_cons _ _)
        | OpenParen =>
          have hopen : expect_token TokenType.OpenParen (Token.OpenParen :: (xs : List Token))
              = .ok xs := rfl
          simp only [parse_factor, peek_token, hopen] at h
          cases hpe : parse_expression f 0 xs with
          | error err => rw [hpe] at h; simp at h
          | ok pr =>
            obtain ⟨expr, r2⟩ := pr
            rw [hpe] at h
            dsimp only at h
            cases hex : expect_token .CloseParen r2 with
            | error err => rw [hex] at h; simp at h
            | ok r3 =>
              rw [hex] at h
              simp at h
              rw [← h.2]
              obtain ⟨c, hc, -, -⟩ := expect_token_shape .CloseParen r2 r3 hex
              have h1 : r3 <:+ r2 := by rw [hc]; exact List.suffix_cons _ _
              exact ((h1.trans (ihe 0 xs expr r2 hpe)).trans (List.suffix_cons _ _))
        | Identifier name => simp [parse_factor, peek_token] at h
        | IntKeyword => simp [parse_factor, peek_token] at h
        | VoidKeyword => simp [parse_factor, peek_token] at h
        | ReturnKeyword => simp [parse_factor, peek_token] at h
        | CloseParen => simp [parse_factor, peek_token] at h
        | OpenBrace => simp [parse_factor, peek_token] at h
        | CloseBrace => simp [parse_factor, peek_token] at h
        | Semicolon => simp [parse_factor, peek_token] at h
        | DoubleHyphen => simp [parse_factor, peek_token] at h
        | Plus => simp [parse_factor, peek_token] at h
        | Asterisk => simp [parse_factor, peek_token] at h
        | ForwardSlash => simp [parse_factor, peek_token] at h
        | Percent => simp [parse_factor, peek_token] at h
        | ExclamationMark => simp [parse_factor, peek_token] at h
        | DoubleAmpersand => simp [parse_factor, peek_token] at h
        | DoublePipe => simp [parse_factor, peek_token] at h
        | DoubleEqual => simp [parse_factor, peek_token] at h
        | ExclamationEqual => simp [parse_factor, peek_token] at h
        | LessThan => simp [parse_factor, peek_token] at h
        | GreaterThan => simp [parse_factor, peek_token] at h
        | LessThanEqual => simp [parse_factor, peek_token] at h
        | GreaterThanEqual => simp [parse_factor, peek_token] at h
    · -- parse_expression (f+1)
      cases hf : parse_factor f toks with
      | error err => simp [parse_expression, hf] at h
      | ok pr =>
        obtain ⟨left, rest1⟩ := pr
        simp only [parse_expression, hf] at h
        cases hp : peek_token rest1 with
        | error err => rw [hp] at h; simp at h
        | ok nt =>
          rw [hp] at h
          exact (ihl m left nt rest1 e rest h).trans (ihf toks left rest1 hf)
    · -- parse_expression_loop (f+1)
      simp only [parse_expression_loop] at h
      by_cases hb : nt.is_binary_operator = false
      · simp only [hb, reduceIte] at h
        simp at h
        rw [← h.2]
      · have hb' : nt.is_binary_operator = true := by
          revert hb; cases nt.is_binary_operator <;> simp
        simp only [hb', Bool.true_eq_false, reduceIte] at h
        by_cases hpl : token_precedence_i32 nt < (m : Int)
        · simp only [if_pos hpl] at h
          simp at h
          rw [← h.2]
        · simp only [if_neg hpl] at h
          cases hbo : parse_binary_operator toks with
          | error err => rw [hbo] at h; simp at h
          | ok pr =>
            obtain ⟨op, rest1⟩ := pr
            rw [hbo] at h
            dsimp only at h
            cases hre : parse_expression f (token_precedence_i32 nt + 1).toNat rest1 with
            | error err => rw [hre] at h; simp at h
            | ok pr2 =>
              obtain ⟨right, rest2⟩ := pr2
              rw [hre] at h
              dsimp only at h
              cases hp2 : peek_token rest2 with
              | error err => rw [hp2] at h; simp at h
              | ok nt2 =>
                rw [hp2] at h
                have s1 := ihl m (.Binary op l right) nt2 rest2 e rest h
                have s2 := ihe (token_precedence_i32 nt + 1).toNat rest1 right rest2 hre
                have s3 : rest1 <:+ toks := by
                  cases toks with
                  | nil => simp [parse_binary_operator, consume_token] at hbo
                  | cons y ys =>
                    obtain ⟨hr, -⟩ := parse_binary_operator_shape y ys rest1 op hbo
                    rw [hr]
                    exact List.suffix_cons _ _
                exact (s1.trans s2).trans s3

/-- Removing a trailing non-operator sentinel token: a run of the parser
on `toks ++ [t]` that succeeds leaving `s ++ [t]` corresponds to a run on
`toks` alone that behaves identically except that the peeks which saw
`t` now see the end of the stream.  `parse_factor` never peeks past what
it consumes, so it simply succeeds leaving `s`; `parse_expression` (and
its loop) peek one token past the parsed expression, so they succeed
leaving `s` when `s` is nonempty and fail with `UnexpectedEndOfInput`
when `s` is empty. -/
theorem parser_strip_sentinel (t : Token) (ht : t.is_binary_operator = false) (fuel : Nat) :
    (∀ toks s e, parse_factor fuel (toks ++ [t]) = .ok (e, s ++ [t]) →
       parse_factor fuel toks = .ok (e, s)) ∧
    (∀ min_precedence toks s e,
       parse_expression fuel min_precedence (toks ++ [t]) = .ok (e, s ++ [t]) →
       parse_expression fuel min_precedence toks =
         (match s with
          | [] => .error .UnexpectedEndOfInput
          | _ :: _ => .ok (e, s))) ∧
    (∀ min_precedence left nt x xs s e,
       parse_expression_loop fuel min_precedence left nt ((x :: xs) ++ [t])
         = .ok (e, s ++ [t]) →
       parse_expression_loop fuel min_precedence left nt (x :: xs) =
         (match s with
          | [] => .error .UnexpectedEndOfInput
          | _ :: _ => .ok (e, s))) := by
  induction fuel with
  | zero =>
    refine ⟨fun toks s e h => ?_, fun m toks s e h => ?_,
            fun m l nt x xs s e h => ?_⟩ <;>
      simp [parse_factor, parse_expression, parse_expression_loop] at h
  | succ f ih =>
    obtain ⟨ihf, ihe, ihl⟩ := ih
    refine ⟨fun toks s e h => ?_, fun m toks s e h => ?_,
            fun m left nt x xs s e h => ?_⟩
    · -- parse_factor (f+1)
      cases toks with
      | nil =>
        cases t with
        | Constant v =>
          simp only [List.nil_append, parse_factor, peek_token,
                     parse_constant_integer_factor, consume_token,
                     Except.ok.injEq, Prod.mk.injEq] at h
          exact absurd (congrArg List.length h.2) (by simp)
        | _ =>
          simp [parse_factor, peek_token, parse_constant_integer_factor,
                parse_unary_operator, consume_token, expect_token, Token.kind,
                parse_factor_nil, parse_expression_nil] at h
      | cons x xs =>
        cases x with
        | Constant v =>
          simp only [List.cons_append, parse_factor, peek_token,
                     parse_constant_integer_factor, consume_token,
                     Except.ok.injEq, Prod.mk.injEq] at h
          obtain ⟨h1, h2⟩ := h
          have hs : xs = s := List.append_cancel_right h2
          subst hs
          rw [← h1]
          rfl
        | Hyphen =>
          simp only [List.cons_append, parse_factor, peek_token,
                     parse_unary_operator, consume_token] at h
          cases hf : parse_factor f (xs ++ [t]) with
          | error err => rw [hf] at h; simp at h
          | ok pr =>
            obtain ⟨inner, r2⟩ := pr
            rw [hf] at h
            simp at h
            obtain ⟨h1, h2⟩ := h
            subst h2
            have hstrip := ihf xs s inner hf
            rw [← h1]
            simp [parse_factor, peek_token, parse_unary_operator, consume_token, hstrip]
        | Tilde =>
          simp only [List.cons_append, parse_factor, peek_token,
                     parse_unary_operator, consume_token] at h
          cases hf : parse_factor f (xs ++ [t]) with
          | error err => rw [hf] at h; simp at h
          | ok pr =>
            obtain ⟨inner, r2⟩ := pr
            rw [hf] at h
            simp at h
            obtain ⟨h1, h2⟩ := h
            subst h2
            have hstrip := ihf xs s inner hf
            rw [← h1]
            simp [parse_factor, peek_token, parse_unary_operator, consume_token, hstrip]
        | OpenParen =>
          have hopen : expect_token TokenType.OpenParen
              (Token.OpenParen :: (xs ++ [t])) = .ok (xs ++ [t]) := rfl
          simp only [List.cons_append, parse_factor, peek_token, hopen] at h
          cases hpe : parse_expression f 0 (xs ++ [t]) with
          | error err => rw [hpe] at h; simp at h
          | ok pr =>
            obtain ⟨expr, r2⟩ := pr
            rw [hpe] at h
            dsimp only at h
            cases hex : expect_token .CloseParen r2 with
            | error err => rw [hex] at h; simp at h
            | ok r3 =>
              rw [hex] at h
              simp at h
              obtain ⟨h1, h2⟩ := h
              subst h2
              obtain ⟨c, hc, hk, hretail⟩ := expect_token_shape .CloseParen r2 _ hex
              rw [hc] at hpe
              have hpe2 : parse_expression f 0 (xs ++ [t]) = .ok (expr, (c :: s) ++ [t]) := hpe
              have hstrip : parse_expression f 0 xs = .ok (expr, c :: s) :=
                ihe 0 xs (c :: s) expr hpe2
              have hopen2 : expect_token TokenType.OpenParen
                  (Token.OpenParen :: (xs : List Token)) = .ok xs := rfl
              rw [← h1]
              simp [parse_factor, peek_token, hopen2, hstrip, hretail s]
        | Identifier name => simp [List.cons_append, parse_factor, peek_token] at h
        | IntKeyword => simp [List.cons_append, parse_factor, peek_token] at h
        | VoidKeyword => simp [List.cons_append, parse_factor, peek_token] at h
        | ReturnKeyword => simp [List.cons_append, parse_factor, peek_token] at h
        | CloseParen => simp [List.cons_append, parse_factor, peek_token] at h
        | OpenBrace => simp [List.cons_append, parse_factor, peek_token] at h
        | CloseBrace => simp [List.cons_append, parse_factor, peek_token] at h
        | Semicolon => simp [List.cons_append, parse_factor, peek_token] at h
        | DoubleHyphen => simp [List.cons_append, parse_factor, peek_token] at h
        | Plus => simp [List.cons_append, parse_factor, peek_token] at h
        | Asterisk => simp [List.cons_append, parse_factor, peek_token] at h
        | ForwardSlash => simp [List.cons_append, parse_factor, peek_token] at h
        | Percent => simp [List.cons_append, parse_factor, peek_token] at h
        | ExclamationMark => simp [List.cons_append, parse_factor, peek_token] at h
        | DoubleAmpersand => simp [List.cons_append, parse_factor, peek_token] at h
        | DoublePipe => simp [List.cons_append, parse_factor, peek_token] at h
        | DoubleEqual => simp [List.cons_append, parse_factor, peek_token] at h
        | ExclamationEqual => simp [List.cons_append, parse_factor, peek_token] at h
        | LessThan => simp [List.cons_append, parse_factor, peek_token] at h
        | GreaterThan => simp [List.cons_append, parse_factor, peek_token] at h
        | LessThanEqual => simp [List.cons_append, parse_factor, peek_token] at h
        | GreaterThanEqual => simp [List.cons_append, parse_factor, peek_token] at h
    · -- parse_expression (f+1)
      cases hf : parse_factor f (toks ++ [t]) with
      | error err => simp [parse_expression, hf] at h
      | ok pr =>
        obtain ⟨left, rest1⟩ := pr
        simp only [parse_expression, hf] at h
        cases hp : peek_token rest1 with
        | error err => rw [hp] at h; simp at h
        | ok nt =>
          rw [hp] at h
          dsimp only at h
          obtain ⟨u, hu⟩ :=
            (parser_consumes_suffix f).2.2 m left nt rest1 e (s ++ [t]) h
          have hrest1 : rest1 = (u ++ s) ++ [t] := by rw [← hu, List.append_assoc]
          subst hrest1
          have hfo := ihf toks (u ++ s) left hf
          cases hus : u ++ s with
          | nil =>
            rw [hus] at hfo hp h
            simp [peek_token] at hp
            subst hp
            cases f with
            | zero => simp [parse_expression_loop] at h
            | succ f2 =>
              simp [parse_expression_loop, ht] at h
              obtain ⟨h1, h2⟩ := h
              subst h2
              show parse_expression (f2 + 1 + 1) m toks = .error .UnexpectedEndOfInput
              simp [parse_expression, hfo, peek_token]
          | cons y ys =>
            rw [hus] at hfo hp h
            simp [peek_token] at hp
            subst hp
            have hl := ihl m left y y ys s e h
            calc parse_expression (f + 1) m toks
                = parse_expression_loop f m left y (y :: ys) := by
                  simp [parse_expression, hfo, peek_token]
              _ = _ := hl
    · -- parse_expression_loop (f+1)
      by_cases hb : nt.is_binary_operator = false
      · simp only [parse_expression_loop, hb, reduceIte] at h ⊢
        simp at h
        obtain ⟨h1, h2⟩ := h
        have hs : x :: xs = s :=
          List.append_cancel_right (by rw [List.cons_append]; exact h2)
        subst hs
        rw [h1]
      · have hb2 : nt.is_binary_operator = true := by
          revert hb; cases nt.is_binary_operator <;> simp
        simp only [parse_expression_loop, hb2, Bool.true_eq_false, reduceIte] at h ⊢
        by_cases hpl : token_precedence_i32 nt < (m : Int)
        · simp only [if_pos hpl] at h ⊢
          simp at h
          obtain ⟨h1, h2⟩ := h
          have hs : x :: xs = s :=
            List.append_cancel_right (by rw [List.cons_append]; exact h2)
          subst hs
          rw [h1]
        · simp only [if_neg hpl, List.cons_append] at h ⊢
          cases hbo : parse_binary_operator (x :: (xs ++ [t])) with
          | error err => rw [hbo] at h; simp at h
          | ok pr =>
            obtain ⟨op, rest1⟩ := pr
            obtain ⟨hrest1, hbretail⟩ :=
              parse_binary_operator_shape x (xs ++ [t]) rest1 op hbo
            subst hrest1
            rw [hbo] at h
            dsimp only at h
            cases hre : parse_expression f (token_precedence_i32 nt + 1).toNat
                (xs ++ [t]) with
            | error err => rw [hre] at h; simp at h
            | ok pr2 =>
              obtain ⟨right, rest2⟩ := pr2
              rw [hre] at h
              dsimp only at h
              cases hp2 : peek_token rest2 with
              | error err => rw [hp2] at h; simp at h
              | ok nt2 =>
                rw [hp2] at h
                dsimp only at h
                obtain ⟨u, hu⟩ := (parser_consumes_suffix f).2.2 m
                  (.Binary op left right) nt2 rest2 e (s ++ [t]) h
                have hrest2 : rest2 = (u ++ s) ++ [t] := by
                  rw [← hu, List.append_assoc]
                subst hrest2
                have hree := ihe (token_precedence_i32 nt + 1).toNat xs (u ++ s)
                  right hre
                cases hus : u ++ s with
                | nil =>
                  rw [hus] at hree hp2 h
                  simp [peek_token] at hp2
                  subst hp2
                  cases f with
                  | zero => simp [parse_expression_loop] at h
                  | succ f2 =>
                    simp [parse_expression_loop, ht] at h
                    obtain ⟨h1, h2⟩ := h
                    subst h2
                    have hree2 : parse_expression (f2 + 1)
                        (token_precedence_i32 nt + 1).toNat xs
                        = .error .UnexpectedEndOfInput := hree
                    simp [hbretail xs, hree2]
                | cons y ys =>
                  rw [hus] at hree hp2 h
                  simp [peek_token] at hp2
                  subst hp2
                  have hree2 : parse_expression f
                      (token_precedence_i32 nt + 1).toNat xs
                      = .ok (right, y :: ys) := hree
                  have hl := ihl m (.Binary op left right) y y ys s e h
                  calc (match parse_binary_operator (x :: xs) with
                        | .error e => .error e
                        | .ok (operator, rest) =>
                          match parse_expression f
                              (token_precedence_i32 nt + 1).toNat rest with
                          | .error e => .error e
                          | .ok (right, rest2) =>
                            match peek_token rest2 with
                            | .error e => .error e
                            | .ok next_token2 =>
                              parse_expression_loop f m
                                (.Binary operator left right) next_token2 rest2)
                      = parse_expression_loop f m (.Binary op left right) y
                          (y :: ys) := by
                        simp [hbretail xs, hree2, peek_token]
                    _ = _ := hl

/-- Claim C10 (new).  `parse_expression` requires one token of lookahead
after every expression: whenever a token list parses as a complete
well-formed expression in context — appending any single non-operator
token `t` makes the parse succeed with exactly `t` left over — parsing
that token list alone returns `Err(UnexpectedEndOfInput)` instead of the
parsed expression, because the parser peeks past the expression for a
possible binary operator. -/
theorem C10_expression_needs_lookahead (fuel min_precedence : Nat)
    (toks : List Token) (t : Token) (e : CmmExpression)
    (ht : t.is_binary_operator = false)
    (h : parse_expression fuel min_precedence (toks ++ [t]) = .ok (e, [t])) :
    parse_expression fuel min_precedence toks = .error .UnexpectedEndOfInput :=
  (parser_strip_sentinel t ht fuel).2.1 min_precedence toks [] e h

/-- Witness for C10 at the binary expression `1 + 2` (with a semicolon
as the appended context token): it parses to completion in context, yet
alone it yields `UnexpectedEndOfInput`. -/
theorem C10_witness :
    parse_expression 8 0 [.Constant 1, .Plus, .Constant 2]
      = .error .UnexpectedEndOfInput :=
  C10_expression_needs_lookahead 8 0 [.Constant 1, .Plus, .Constant 2] .Semicolon
    (.Binary .Add (.IntegerConstant 1) (.IntegerConstant 2)) rfl rfl

/-- The binary-operator token of each `CmmBinaryOperator`: the inverse of
the token table of `parse_binary_operator`. -/
def token_of_binary_operator : CmmBinaryOperator → Token
  | .Add => .Plus
  | .Subtract => .Hyphen
  | .Multiply => .Asterisk
  | .Divide => .ForwardSlash
  | .Remainder => .Percent
  | .And => .DoubleAmpersand
  | .Or => .DoublePipe
  | .Equal => .DoubleEqual
  | .NotEqual => .ExclamationEqual
  | .LessThan => .LessThan
  | .GreaterThan => .GreaterThan
  | .LessThanEqual => .LessThanEqual
  | .GreaterThanEqual => .GreaterThanEqual

set_option maxHeartbeats 1000000 in
/-- Claim C7.  Precedence climbing with the source's table, all
left-associative: for constants `a b c`, binary-operator tokens for
`o1 o2`, and any following non-operator token `t`, the parse of
`a o1 b o2 c t` groups to the left when `prec o1 ≥ prec o2` and to the
right when `prec o1 < prec o2`, leaving `t` unconsumed. -/
theorem C7_precedence_climbing (a b c : Int) (o1 o2 : CmmBinaryOperator)
    (t : Token) (ht : t.is_binary_operator = false) :
    parse_expression 8 0
      [.Constant a, token_of_binary_operator o1, .Constant b,
       token_of_binary_operator o2, .Constant c, t]
    = .ok
      (if token_precedence_i32 (token_of_binary_operator o2)
          ≤ token_precedence_i32 (token_of_binary_operator o1)
       then .Binary o2 (.Binary o1 (.IntegerConstant a) (.IntegerConstant b))
              (.IntegerConstant c)
       else .Binary o1 (.IntegerConstant a)
              (.Binary o2 (.IntegerConstant b) (.IntegerConstant c)),
       [t]) := by
  cases o1 <;> cases o2 <;> cases t <;> first | rfl | exact Bool.noConfusion ht

/-- Witness for C7: `1 + 2 * 3` followed by a semicolon parses as
`1 + (2 * 3)` because `+` binds weaker than `*`. -/
theorem C7_witness :
    parse_expression 8 0
      [.Constant 1, token_of_binary_operator .Add, .Constant 2,
       token_of_binary_operator .Multiply, .Constant 3, .Semicolon]
    = .ok
      (if token_precedence_i32 (token_of_binary_operator .Multiply)
          ≤ token_precedence_i32 (token_of_binary_operator .Add)
       then .Binary .Multiply
              (.Binary .Add (.IntegerConstant 1) (.IntegerConstant 2))
              (.IntegerConstant 3)
       else .Binary .Add (.IntegerConstant 1)
              (.Binary .Multiply (.IntegerConstant 2) (.IntegerConstant 3)),
       [.Semicolon]) :=
  C7_precedence_climbing 1 2 3 .Add .Multiply .Semicolon rfl

/-! ## TACKY IR: src/src/compiler/ir_gen/tacky_ast.rs -/

/-- TackyValue from ir_gen/tacky_ast.rs. -/
inductive TackyValue where
  | Constant (value : Int)
  | Variable (name : String)
deriving DecidableEq, Repr

/-- TackyUnaryOperator from ir_gen/tacky_ast.rs. -/
inductive TackyUnaryOperator where
  | Complement
  | Negate
  | Not
deriving DecidableEq, Repr

/-- TackyBinaryOperator from ir_gen/tacky_ast.rs.  Note: there are no
`And`/`Or` variants; the logical operators are lowered to control flow
and are not representable here. -/
inductive TackyBinaryOperator where
  | Add
  | Subtract
  | Multiply
  | Divide
  | Remainder
  | Equal
  | NotEqual
  | LessThan
  | GreaterThan
  | LessThanEqual
  | GreaterThanEqual
deriving DecidableEq, Repr

/-- TackyInstruction from ir_gen/tacky_ast.rs. -/
inductive TackyInstruction where
  | Return (value : TackyValue)
  | Unary (operator : TackyUnaryOperator) (source : TackyValue) (destination : TackyValue)
  | Binary (operator : TackyBinaryOperator) (source1 : TackyValue) (source2 : TackyValue)
      (destination : TackyValue)
  | Copy (source : TackyValue) (destination : TackyValue)
  | Jump (target : String)
  | JumpIfZero (condition : TackyValue) (target : String)
  | JumpIfNotZero (condition : TackyValue) (target : String)
  | Label (label : String)
deriving DecidableEq, Repr

/-- TackyFunction from ir_gen/tacky_ast.rs. -/
inductive TackyFunction where
  | Function (identifier : String) (instructions : List TackyInstruction)
deriving DecidableEq, Repr

/-- TackyAst from ir_gen/tacky_ast.rs. -/
inductive TackyAst where
  | Program (function : TackyFunction)
deriving DecidableEq, Repr

/-! ## IR generator: src/src/compiler/ir_gen/mod.rs and errors.rs -/

/-- IRConversionError from ir_gen/errors.rs. -/
inductive IRConversionError where
  | UnexpectedToken (expected : TokenType) (actual : TokenType)
  | UnsupportedBinaryOperatorConversion (operator : CmmBinaryOperator)
deriving DecidableEq, Repr

/-- The `TackyEmitter` state from ir_gen/mod.rs: the two monotone
counters. -/
structure TackyEmitter where
  temp_counter : Nat
  label_counter : Nat
deriving DecidableEq, Repr

/-- `TackyEmitter::make_temporary`: produces `tmp.<n>` and increments the
temporary counter. -/
def make_temporary (s : TackyEmitter) : String × TackyEmitter :=
  (("tmp.") ++ Nat.repr s.temp_counter,
   { s with temp_counter := s.temp_counter + 1 })

/-- `TackyEmitter::make_label`: produces `<name><n>` and increments the
label counter. -/
def make_label (label_name : String) (s : TackyEmitter) : String × TackyEmitter :=
  (label_name ++ Nat.repr s.label_counter,
   { s with label_counter := s.label_counter + 1 })

/-- `convert_unary_operator` from ir_gen/mod.rs. -/
def convert_unary_operator : CmmUnaryOperator → TackyUnaryOperator
  | .Complement => .Complement
  | .Negate => .Negate
  | .Not => .Not

/-- `convert_binary_operator` from ir_gen/mod.rs: `And`/`Or` are not
convertible. -/
def convert_binary_operator : CmmBinaryOperator → Except IRConversionError TackyBinaryOperator
  | .Add => .ok .Add
  | .Subtract => .ok .Subtract
  | .Multiply => .ok .Multiply
  | .Divide => .ok .Divide
  | .Remainder => .ok .Remainder
  | .Equal => .ok .Equal
  | .NotEqual => .ok .NotEqual
  | .GreaterThan => .ok .GreaterThan
  | .LessThan => .ok .LessThan
  | .GreaterThanEqual => .ok .GreaterThanEqual
  | .LessThanEqual => .ok .LessThanEqual
  | .And => .error (.UnsupportedBinaryOperatorConversion .And)
  | .Or => .error (.UnsupportedBinaryOperatorConversion .Or)

/-- `TackyEmitter::emit_tacky` from ir_gen/mod.rs lines 114-259.  The
Rust method appends to a shared `Vec<TackyInstruction>` and mutates the
emitter; here the appended instruction list is returned together with the
result value and the updated counters.  The catch-all arm is the Rust
arm that lists the eleven non-logical operators explicitly. -/
def emit_tacky : CmmExpression → TackyEmitter →
    Except IRConversionError (TackyValue × List TackyInstruction × TackyEmitter)
  | .IntegerConstant value, s => .ok (.Constant value, [], s)
  | .Unary operator expression, s =>
    match emit_tacky expression s with
    | .error e => .error e
    | .ok (source, instrs, s1) =>
      let (destination_name, s2) := make_temporary s1
      let destination := TackyValue.Variable destination_name
      let op := convert_unary_operator operator
      .ok (destination, instrs ++ [.Unary op source destination], s2)
  | .Binary operator left right, s =>
    match operator with
    | .And =>
      let (label_false_name, s1) := make_label ("and_false") s
      let (label_end_name, s2) := make_label ("and_end") s1
      match emit_tacky left s2 with
      | .error e => .error e
      | .ok (source1, instrs1, s3) =>
        match emit_tacky right s3 with
        | .error e => .error e
        | .ok (source2, instrs2, s4) =>
          let (destination_name, s5) := make_temporary s4
          .ok (.Variable destination_name,
               instrs1 ++ [.JumpIfZero source1 label_false_name]
                 ++ instrs2
                 ++ [.JumpIfZero source2 label_false_name,
                     .Copy (.Constant 1) (.Variable destination_name),
                     .Jump label_end_name,
                     .Label label_false_name,
                     .Copy (.Constant 0) (.Variable destination_name),
                     .Label label_end_name],
               s5)
    | .Or =>
      let (label_true_name, s1) := make_label ("or_true") s
      let (label_end_name, s2) := make_label ("or_end") s1
      match emit_tacky left s2 with
      | .error e => .error e
      | .ok (source1, instrs1, s3) =>
        match emit_tacky right s3 with
        | .error e => .error e
        | .ok (source2, instrs2, s4) =>
          let (destination_name, s5) := make_temporary s4
          .ok (.Variable destination_name,
               instrs1 ++ [.JumpIfNotZero source1 label_true_name]
                 ++ instrs2
                 ++ [.JumpIfNotZero source2 label_true_name,
                     .Copy (.Constant 0) (.Variable destination_name),
                     .Jump label_end_name,
                     .Label label_true_name,
                     .Copy (.Constant 1) (.Variable destination_name),
                     .Label label_end_name],
               s5)
    | _ =>
      match emit_tacky left s with
      | .error e => .error e
      | .ok (source1, instrs1, s1) =>
        match emit_tacky right s1 with
        | .error e => .error e
        | .ok (source2, instrs2, s2) =>
          let (destination_name, s3) := make_temporary s2
          let destination := TackyValue.Variable destination_name
          match convert_binary_operator operator with
          | .error e => .error e
          | .ok op =>
            .ok (destination,
                 instrs1 ++ instrs2 ++ [.Binary op source1 source2 destination],
                 s3)

/-- `TackyEmitter::convert_statement` from ir_gen/mod.rs. -/
def TackyEmitter.convert_statement (cmm_statement : CmmStatement) (s : TackyEmitter) :
    Except IRConversionError (List TackyInstruction × TackyEmitter) :=
  match cmm_statement with
  | .Return expression =>
    match emit_tacky expression s with
    | .error e => .error e
    | .ok (tacky_value, instrs, s1) =>
      .ok (instrs ++ [.Return tacky_value], s1)

/-- `TackyEmitter::convert_function` from ir_gen/mod.rs. -/
def TackyEmitter.convert_function (cmm_function : CmmFunction) (s : TackyEmitter) :
    Except IRConversionError (TackyFunction × TackyEmitter) :=
  match cmm_function with
  | .Function identifier body =>
    match TackyEmitter.convert_statement body s with
    | .error e => .error e
    | .ok (statements, s1) => .ok (.Function identifier statements, s1)

/-- `convert_ast` from ir_gen/mod.rs (the `TackyEmitter::convert_ast`
method; a fresh emitter starts with both counters at zero). -/
def TackyEmitter.convert_ast (cmm_ast : CmmAst) (s : TackyEmitter) :
    Except IRConversionError (TackyAst × TackyEmitter) :=
  match cmm_ast with
  | .Program function =>
    match TackyEmitter.convert_function function s with
    | .error e => .error e
    | .ok (f, s1) => .ok (.Program f, s1)

/-! ## Claim C6 (IR generator) -/

/-- Claim C6.  Lowering `Binary(And, l, r)` emits exactly the
short-circuit sequence: the fresh labels `and_false<n>` / `and_end<n+1>`
are drawn first, then the instructions of `l`, `JumpIfZero` on its
result, the instructions of `r`, `JumpIfZero` on its result,
`Copy(1, d); Jump(end); Label(false); Copy(0, d); Label(end)` for a
fresh temporary `d`, returning `Variable(d)`.  No `TackyInstruction.Binary`
is emitted for `And` (indeed `TackyBinaryOperator` has no `And`/`Or`
variant at all). -/
theorem C6_short_circuit_and (left right : CmmExpression) (tc lc : Nat)
    (a : TackyValue) (instrs1 : List TackyInstruction) (s3 : TackyEmitter)
    (b : TackyValue) (instrs2 : List TackyInstruction) (s4 : TackyEmitter)
    (h1 : emit_tacky left ⟨tc, lc + 2⟩ = .ok (a, instrs1, s3))
    (h2 : emit_tacky right s3 = .ok (b, instrs2, s4)) :
    emit_tacky (.Binary .And left right) ⟨tc, lc⟩
    = .ok (.Variable (("tmp.") ++ Nat.repr s4.temp_counter),
        instrs1 ++ [.JumpIfZero a (("and_false") ++ Nat.repr lc)]
          ++ instrs2
          ++ [.JumpIfZero b (("and_false") ++ Nat.repr lc),
              .Copy (.Constant 1) (.Variable (("tmp.") ++ Nat.repr s4.temp_counter)),
              .Jump (("and_end") ++ Nat.repr (lc + 1)),
              .Label (("and_false") ++ Nat.repr lc),
              .Copy (.Constant 0) (.Variable (("tmp.") ++ Nat.repr s4.temp_counter)),
              .Label (("and_end") ++ Nat.repr (lc + 1))],
        ⟨s4.temp_counter + 1, s4.label_counter⟩) := by
  have e2 : lc + 1 + 1 = lc + 2 := rfl
  simp [emit_tacky, make_label, make_temporary, e2, h1, h2]

/-- Witness for C6 at `1 && 2` from a fresh emitter; this is exactly the
expected output of the repository's own `test_emit_tacky_and_operation`
unit test. -/
theorem C6_witness :
    emit_tacky (.Binary .And (.IntegerConstant 1) (.IntegerConstant 2)) ⟨0, 0⟩
    = .ok (.Variable ("tmp.0"),
        [.JumpIfZero (.Constant 1) ("and_false0"),
         .JumpIfZero (.Constant 2) ("and_false0"),
         .Copy (.Constant 1) (.Variable ("tmp.0")),
         .Jump ("and_end1"),
         .Label ("and_false0"),
         .Copy (.Constant 0) (.Variable ("tmp.0")),
         .Label ("and_end1")],
        ⟨1, 2⟩) := by
  have h := C6_short_circuit_and (.IntegerConstant 1) (.IntegerConstant 2) 0 0
    (.Constant 1) [] ⟨0, 2⟩ (.Constant 2) [] ⟨0, 2⟩ rfl rfl
  simpa using h

/-! ## Assembly AST: src/src/compiler/code_gen/assembly_ast.rs

The shipped `assembly_ast.rs` file is a historical snapshot that lacks
the comparison/jump/label variants; the enums below follow the full set
of constructors as constructed and consumed by code_gen/mod.rs and
code_emission/mod.rs. -/

/-- AssemblyRegister (AX, DX and the two scratch registers). -/
inductive AssemblyRegister where
  | AX
  | DX
  | R10
  | R11
deriving DecidableEq, Repr

/-- AssemblyUnaryOperator. -/
inductive AssemblyUnaryOperator where
  | Neg
  | Not
deriving DecidableEq, Repr

/-- AssemblyBinaryOperator. -/
inductive AssemblyBinaryOperator where
  | Add
  | Sub
  | Mult
deriving DecidableEq, Repr

/-- AssemblyConditionCode (as consumed by code_emission/mod.rs). -/
inductive AssemblyConditionCode where
  | E
  | NE
  | G
  | L
  | GE
  | LE
deriving DecidableEq, Repr

/-- AssemblyOperand. -/
inductive AssemblyOperand where
  | Imm (value : Int)
  | Register (register : AssemblyRegister)
  | Pseudo (identifier : String)
  | Stack (offset : Int)
deriving DecidableEq, Repr

/-- AssemblyInstruction. -/
inductive AssemblyInstruction where
  | Mov (source : AssemblyOperand) (destination : AssemblyOperand)
  | Unary (op : AssemblyUnaryOperator) (operand : AssemblyOperand)
  | Binary (op : AssemblyBinaryOperator) (source : AssemblyOperand)
      (destination : AssemblyOperand)
  | Cmp (left : AssemblyOperand) (right : AssemblyOperand)
  | Idiv (operand : AssemblyOperand)
  | Cdq
  | AllocateStack (stack_offset : Int)
  | Jmp (label : String)
  | JmpCC (condition : AssemblyConditionCode) (label : String)
  | SetCC (condition : AssemblyConditionCode) (operand : AssemblyOperand)
  | Label (label : String)
  | Ret
deriving DecidableEq, Repr

/-- AssemblyFunction. -/
inductive AssemblyFunction where
  | Function (identifier : String) (instructions : List AssemblyInstruction)
deriving DecidableEq, Repr

/-- AssemblyAst. -/
inductive AssemblyAst where
  | Program (function : AssemblyFunction)
deriving DecidableEq, Repr

/-! ## Code generator: src/src/compiler/code_gen/mod.rs and errors.rs -/

/-- CodegenError from code_gen/errors.rs. -/
inductive CodegenError where
  | UnexpectedToken (expected : TokenType) (actual : TokenType)
  | UnsupportedUnaryOperatorConversion (operator : TackyUnaryOperator)
  | UnsupportedConditionCodeConversion (operator : TackyBinaryOperator)
  | UnsupportedBinaryOperatorConversion (operator : TackyBinaryOperator)
deriving DecidableEq, Repr

/-- Modelled from the spec: `constants::STACK_ADDRESS_OFFSET` lives in
code_gen/constants.rs, a file that is not among the provided sources.
The spec fixes one 32-bit slot of 4 bytes per temporary ("decrement
`next_offset` by 4"), and the repository's own
`test_pseudoregister_replacement_pass_success` expects offset `-4` for a
single temporary, so the constant is 4. -/
def STACK_ADDRESS_OFFSET : Int := 4

/-- `convert_operand` from code_gen/mod.rs. -/
def convert_operand : TackyValue → AssemblyOperand
  | .Constant value => .Imm value
  | .Variable name => .Pseudo name

/-- `convert_condition_code` from code_gen/mod.rs. -/
def convert_condition_code : TackyBinaryOperator → Except CodegenError AssemblyConditionCode
  | .Equal => .ok .E
  | .NotEqual => .ok .NE
  | .LessThan => .ok .L
  | .GreaterThan => .ok .G
  | .LessThanEqual => .ok .LE
  | .GreaterThanEqual => .ok .GE
  | op => .error (.UnsupportedConditionCodeConversion op)

/-- The per-instruction body of the `for` loop of
`instruction_conversion_pass` (code_gen/mod.rs lines 152-339): the
assembly sequence pushed for one TACKY instruction. -/
def convert_tacky_instruction : TackyInstruction →
    Except CodegenError (List AssemblyInstruction)
  | .Return value =>
    .ok [.Mov (convert_operand value) (.Register .AX), .Ret]
  | .Unary operator source destination =>
    match operator with
    | .Not =>
      .ok [.Cmp (.Imm 0) (convert_operand source),
           .Mov (.Imm 0) (convert_operand destination),
           .SetCC .E (convert_operand destination)]
    | .Complement =>
      .ok [.Mov (convert_operand source) (convert_operand destination),
           .Unary .Not (convert_operand destination)]
    | .Negate =>
      .ok [.Mov (convert_operand source) (convert_operand destination),
           .Unary .Neg (convert_operand destination)]
  | .Binary operator source1 source2 destination =>
    match operator with
    | .Add =>
      .ok [.Mov (convert_operand source1) (convert_operand destination),
           .Binary .Add (convert_operand source2) (convert_operand destination)]
    | .Subtract =>
      .ok [.Mov (convert_operand source1) (convert_operand destination),
           .Binary .Sub (convert_operand source2) (convert_operand destination)]
    | .Multiply =>
      .ok [.Mov (convert_operand source1) (convert_operand destination),
           .Binary .Mult (convert_operand source2) (convert_operand destination)]
    | .Divide =>
      .ok [.Mov (convert_operand source1) (.Register .AX),
           .Cdq,
           .Idiv (convert_operand source2),
           .Mov (.Register .AX) (convert_operand destination)]
    | .Remainder =>
      .ok [.Mov (convert_operand source1) (.Register .AX),
           .Cdq,
           .Idiv (convert_operand source2),
           .Mov (.Register .DX) (convert_operand destination)]
    | op =>
      -- relational operators Equal/NotEqual/GreaterThan/LessThan/
      -- GreaterThanEqual/LessThanEqual, listed explicitly in the Rust arm
      match convert_condition_code op with
      | .error e => .error e
      | .ok condition =>
        .ok [.Cmp (convert_operand source2) (convert_operand source1),
             .Mov (.Imm 0) (convert_operand destination),
             .SetCC condition (convert_operand destination)]
  | .Copy source destination =>
    .ok [.Mov (convert_operand source) (convert_operand destination)]
  | .Jump target => .ok [.Jmp target]
  | .JumpIfZero condition target =>
    .ok [.Cmp (.Imm 0) (convert_operand condition), .JmpCC .E target]
  | .JumpIfNotZero condition target =>
    .ok [.Cmp (.Imm 0) (convert_operand condition), .JmpCC .NE target]
  | .Label label => .ok [.Label label]

/-- `instruction_conversion_pass` from code_gen/mod.rs: the `for` loop
accumulating the per-instruction sequences. -/
def instruction_conversion_pass : List TackyInstruction →
    Except CodegenError (List AssemblyInstruction)
  | [] => .ok []
  | tacky_instruction :: rest =>
    match convert_tacky_instruction tacky_instruction with
    | .error e => .error e
    | .ok asm_instructions =>
      match instruction_conversion_pass rest with
      | .error e => .error e
      | .ok converted_rest => .ok (asm_instructions ++ converted_rest)

/-- `HashMap::get` on the identifier-to-offset mapping; the map is
modelled as an association list because the pass only ever gets and
inserts. -/
def lookup_offset (identifier : String) : List (String × Int) → Option Int
  | [] => none
  | (name, offset) :: rest =>
    if name = identifier then some offset else lookup_offset identifier rest

/-- `convert_pseudo_register` from code_gen/mod.rs lines 451-468: a
`Pseudo` operand becomes the recorded `Stack` offset, or a freshly
allocated one (counter decremented by `STACK_ADDRESS_OFFSET`); every
other operand is untouched. -/
def convert_pseudo_register (operand : AssemblyOperand)
    (identifier_offsets : List (String × Int)) (offset_counter : Int) :
    AssemblyOperand × List (String × Int) × Int :=
  match operand with
  | .Pseudo identifier =>
    match lookup_offset identifier identifier_offsets with
    | some offset => (.Stack offset, identifier_offsets, offset_counter)
    | none =>
      let new_counter := offset_counter - STACK_ADDRESS_OFFSET
      (.Stack new_counter, (identifier, new_counter) :: identifier_offsets, new_counter)
  | op => (op, identifier_offsets, offset_counter)

/-- The per-instruction body of the `for` loop of
`pseudoregister_replacement_pass` (code_gen/mod.rs lines 388-436): each
operand position of `Mov`, `Unary`, `Binary`, `Idiv`, `Cmp` and `SetCC`
is rewritten in source order; `Cdq`, `AllocateStack`, `Ret`, `Jmp`,
`JmpCC` and `Label` pass through. -/
def replace_pseudo_in_instruction (instruction : AssemblyInstruction)
    (identifier_offsets : List (String × Int)) (offset_counter : Int) :
    AssemblyInstruction × List (String × Int) × Int :=
  match instruction with
  | .Mov source destination =>
    let (source2, m1, c1) := convert_pseudo_register source identifier_offsets offset_counter
    let (destination2, m2, c2) := convert_pseudo_register destination m1 c1
    (.Mov source2 destination2, m2, c2)
  | .Unary op operand =>
    let (operand2, m1, c1) := convert_pseudo_register operand identifier_offsets offset_counter
    (.Unary op operand2, m1, c1)
  | .Binary op source destination =>
    let (source2, m1, c1) := convert_pseudo_register source identifier_offsets offset_counter
    let (destination2, m2, c2) := convert_pseudo_register destination m1 c1
    (.Binary op source2 destination2, m2, c2)
  | .Idiv operand =>
    let (operand2, m1, c1) := convert_pseudo_register operand identifier_offsets offset_counter
    (.Idiv operand2, m1, c1)
  | .Cmp left right =>
    let (left2, m1, c1) := convert_pseudo_register left identifier_offsets offset_counter
    let (right2, m2, c2) := convert_pseudo_register right m1 c1
    (.Cmp left2 right2, m2, c2)
  | .SetCC condition operand =>
    let (operand2, m1, c1) := convert_pseudo_register operand identifier_offsets offset_counter
    (.SetCC condition operand2, m1, c1)
  | i => (i, identifier_offsets, offset_counter)

/-- The `for instruction in instructions.iter_mut()` loop of
`pseudoregister_replacement_pass`, threading map and counter. -/
def pseudoregister_replacement_go : List AssemblyInstruction →
    List (String × Int) → Int → List AssemblyInstruction × Int
  | [], _, offset_counter => ([], offset_counter)
  | instruction :: rest, identifier_offsets, offset_counter =>
    let (instruction2, m1, c1) :=
      replace_pseudo_in_instruction instruction identifier_offsets offset_counter
    let (rest2, c2) := pseudoregister_replacement_go rest m1 c1
    (instruction2 :: rest2, c2)

/-- `pseudoregister_replacement_pass` from code_gen/mod.rs: rewrites the
instructions in place and returns the final `offset_counter` (which
starts at 0 and is decremented by 4 per new pseudo name). -/
def pseudoregister_replacement_pass (instructions : List AssemblyInstruction) :
    List AssemblyInstruction × Int :=
  pseudoregister_replacement_go instructions [] 0

/-- `stack_allocation_pass` from code_gen/mod.rs lines 498-502: the
`AllocateStack` instruction carries the final offset counter as is. -/
def stack_allocation_pass (stack_offset : Int) : AssemblyInstruction :=
  .AllocateStack stack_offset

/-- `fixup_asm_instruction` from code_gen/mod.rs lines 518-628. -/
def fixup_asm_instruction (asm_instruction : AssemblyInstruction) :
    List AssemblyInstruction :=
  match asm_instruction with
  | .Mov source destination =>
    match source, destination with
    | .Stack s, .Stack d =>
      [.Mov (.Stack s) (.Register .R10), .Mov (.Register .R10) (.Stack d)]
    | _, _ => [.Mov source destination]
  | .Binary op source destination =>
    match op with
    | .Add =>
      match source, destination with
      | .Stack s, .Stack d =>
        [.Mov (.Stack s) (.Register .R10), .Binary op (.Register .R10) (.Stack d)]
      | _, _ => [.Binary op source destination]
    | .Sub =>
      match source, destination with
      | .Stack s, .Stack d =>
        [.Mov (.Stack s) (.Register .R10), .Binary op (.Register .R10) (.Stack d)]
      | _, _ => [.Binary op source destination]
    | .Mult =>
      [.Mov destination (.Register .R11),
       .Binary op source (.Register .R11),
       .Mov (.Register .R11) destination]
  | .Idiv operand =>
    [.Mov operand (.Register .R10), .Idiv (.Register .R10)]
  | .Cmp left right =>
    match left, right with
    | .Stack a, .Stack b =>
      [.Mov (.Stack a) (.Register .R10), .Cmp (.Register .R10) (.Stack b)]
    | l, .Imm constant =>
      [.Mov (.Imm constant) (.Register .R11), .Cmp l (.Register .R11)]
    | _, _ => [.Cmp left right]
  | i => [i]

/-- `instruction_fixup_pass` from code_gen/mod.rs: appends the fixup of
each instruction in order. -/
def instruction_fixup_pass : List AssemblyInstruction → List AssemblyInstruction
  | [] => []
  | instruction :: rest => fixup_asm_instruction instruction ++ instruction_fixup_pass rest

/-- `convert_instructions` from code_gen/mod.rs lines 129-138: the four
passes composed; the `AllocateStack` produced by `stack_allocation_pass`
is prepended to the fixed-up instructions. -/
def convert_instructions (tacky_instructions : List TackyInstruction) :
    Except CodegenError (List AssemblyInstruction) :=
  match instruction_conversion_pass tacky_instructions with
  | .error e => .error e
  | .ok asm_instructions =>
    let (replaced, stack_offset) := pseudoregister_replacement_pass asm_instructions
    .ok (stack_allocation_pass stack_offset :: instruction_fixup_pass replaced)

/-- `convert_function` from code_gen/mod.rs. -/
def convert_function (tacky_function : TackyFunction) :
    Except CodegenError AssemblyFunction :=
  match tacky_function with
  | .Function identifier instructions =>
    match convert_instructions instructions with
    | .error e => .error e
    | .ok asm => .ok (.Function identifier asm)

/-- `convert_ast` from code_gen/mod.rs (the codegen entry point). -/
def convert_ast (tacky_ast : TackyAst) : Except CodegenError AssemblyAst :=
  match tacky_ast with
  | .Program function =>
    match convert_function function with
    | .error e => .error e
    | .ok f => .ok (.Program f)

/-! ## Claim C5 (instruction fixup of Idiv) -/

/-- Claim C5, counterexample.  An `Idiv` with a non-immediate operand
(here `Stack(-4)`) does not pass through unchanged: the fixup pass
rewrites it through R10 as well. -/
theorem C5_counterexample_stack_idiv_rewritten :
    fixup_asm_instruction (.Idiv (.Stack (-4)))
      = [.Mov (.Stack (-4)) (.Register .R10), .Idiv (.Register .R10)] ∧
    fixup_asm_instruction (.Idiv (.Stack (-4))) ≠ [.Idiv (.Stack (-4))] := by
  exact ⟨rfl, by decide⟩

/-- Claim C5, amended.  The fixup pass rewrites every `Idiv(op)` —
immediate or not — to `Mov(op, R10); Idiv(R10)`; in particular the
claimed `Idiv(Imm(c)) → Mov(Imm(c), R10); Idiv(R10)` rule holds, but a
`Stack` operand is rewritten identically rather than passing through. -/
theorem C5_every_idiv_rewritten (operand : AssemblyOperand) :
    fixup_asm_instruction (.Idiv operand)
      = [.Mov operand (.Register .R10), .Idiv (.Register .R10)] := rfl

/-! ## Claim C2 (stack allocation prologue) -/

/-- `convert_pseudo_register` never increases the offset counter. -/
theorem convert_pseudo_register_counter_le (operand : AssemblyOperand)
    (m : List (String × Int)) (c : Int) :
    (convert_pseudo_register operand m c).2.2 ≤ c := by
  cases operand with
  | Pseudo identifier =>
    cases h : lookup_offset identifier m with
    | some offset => simp [convert_pseudo_register, h]
    | none => simp [convert_pseudo_register, h, STACK_ADDRESS_OFFSET]
  | Imm v => simp [convert_pseudo_register]
  | Register r => simp [convert_pseudo_register]
  | Stack o => simp [convert_pseudo_register]

/-- `replace_pseudo_in_instruction` never increases the offset counter. -/
theorem replace_pseudo_in_instruction_counter_le (instruction : AssemblyInstruction)
    (m : List (String × Int)) (c : Int) :
    (replace_pseudo_in_instruction instruction m c).2.2 ≤ c := by
  cases instruction with
  | Mov s d =>
    exact le_trans (convert_pseudo_register_counter_le d _ _)
      (convert_pseudo_register_counter_le s m c)
  | Unary op o => exact convert_pseudo_register_counter_le o m c
  | Binary op s d =>
    exact le_trans (convert_pseudo_register_counter_le d _ _)
      (convert_pseudo_register_counter_le s m c)
  | Idiv o => exact convert_pseudo_register_counter_le o m c
  | Cmp l r =>
    exact le_trans (convert_pseudo_register_counter_le r _ _)
      (convert_pseudo_register_counter_le l m c)
  | SetCC cc o => exact convert_pseudo_register_counter_le o m c
  | Cdq => exact le_refl c
  | AllocateStack o => exact le_refl c
  | Jmp l => exact le_refl c
  | JmpCC cc l => exact le_refl c
  | Label l => exact le_refl c
  | Ret => exact le_refl c

/-- The replacement walk never increases the offset counter. -/
theorem pseudoregister_replacement_go_counter_le (l : List AssemblyInstruction)
    (m : List (String × Int)) (c : Int) :
    (pseudoregister_replacement_go l m c).2 ≤ c := by
  induction l generalizing m c with
  | nil => simp [pseudoregister_replacement_go]
  | cons i rest ih =>
    have h1 := replace_pseudo_in_instruction_counter_le i m c
    have h2 := ih (replace_pseudo_in_instruction i m c).2.1
      (replace_pseudo_in_instruction i m c).2.2
    simpa [pseudoregister_replacement_go] using le_trans h2 h1

/-- Claim C2, counterexample.  The TACKY function of the codegen
doc-test — two temporaries — yields `AllocateStack(-8)` as the first
instruction: the stack byte count is the negative offset counter, not
its absolute value, and it is negative, not `≥ 0`. -/
theorem C2_counterexample_negative_allocate_stack :
    convert_instructions
      [.Unary .Negate (.Constant 1) (.Variable ("tmp.0")),
       .Unary .Complement (.Variable ("tmp.0")) (.Variable ("tmp.1")),
       .Return (.Variable ("tmp.1"))]
    = .ok [.AllocateStack (-8),
           .Mov (.Imm 1) (.Stack (-4)),
           .Unary .Neg (.Stack (-4)),
           .Mov (.Stack (-4)) (.Register .R10),
           .Mov (.Register .R10) (.Stack (-8)),
           .Unary .Not (.Stack (-8)),
           .Mov (.Stack (-8)) (.Register .AX),
           .Ret] ∧
    ¬ ((0 : Int) ≤ -8) := ⟨rfl, by decide⟩

/-- Claim C2, amended.  After codegen the first instruction is
`AllocateStack{stack_offset}` where `stack_offset` is the final offset
counter of the pseudo-register replacement pass, taken as is: a
non-positive value (-4 per distinct temporary), not its absolute
value. -/
theorem C2_first_instruction_allocate_stack (t : List TackyInstruction)
    (asm : List AssemblyInstruction) (out : List AssemblyInstruction)
    (hconv : instruction_conversion_pass t = .ok asm)
    (hout : convert_instructions t = .ok out) :
    out.head? = some (.AllocateStack (pseudoregister_replacement_pass asm).2) ∧
    (pseudoregister_replacement_pass asm).2 ≤ 0 := by
  unfold convert_instructions at hout
  rw [hconv] at hout
  constructor
  · cases hout
    rfl
  · exact pseudoregister_replacement_go_counter_le asm [] 0

/-- Witness for C2 at a function with one temporary (`return ~2`):
`AllocateStack(-4)` heads the output. -/
theorem C2_witness :
    ([.AllocateStack (-4),
      .Mov (.Imm 2) (.Stack (-4)),
      .Unary .Not (.Stack (-4)),
      .Mov (.Stack (-4)) (.Register .AX),
      .Ret] : List AssemblyInstruction).head?
      = some (.AllocateStack
          (pseudoregister_replacement_pass
            [.Mov (.Imm 2) (.Pseudo ("tmp.0")),
             .Unary .Not (.Pseudo ("tmp.0")),
             .Mov (.Pseudo ("tmp.0")) (.Register .AX),
             .Ret]).2) ∧
    (pseudoregister_replacement_pass
      [.Mov (.Imm 2) (.Pseudo ("tmp.0")),
       .Unary .Not (.Pseudo ("tmp.0")),
       .Mov (.Pseudo ("tmp.0")) (.Register .AX),
       .Ret]).2 ≤ 0 :=
  C2_first_instruction_allocate_stack
    [.Unary .Complement (.Constant 2) (.Variable ("tmp.0")),
     .Return (.Variable ("tmp.0"))]
    [.Mov (.Imm 2) (.Pseudo ("tmp.0")),
     .Unary .Not (.Pseudo ("tmp.0")),
     .Mov (.Pseudo ("tmp.0")) (.Register .AX),
     .Ret]
    [.AllocateStack (-4),
     .Mov (.Imm 2) (.Stack (-4)),
     .Unary .Not (.Stack (-4)),
     .Mov (.Stack (-4)) (.Register .AX),
     .Ret]
    rfl rfl

/-! ## Claim C8 (final-program operand invariants) -/

/-- Operand shape tests used by the final-program invariants. -/
def operand_is_pseudo : AssemblyOperand → Bool
  | .Pseudo _ => true
  | _ => false

/-- Is the operand a `Stack` slot. -/
def operand_is_stack : AssemblyOperand → Bool
  | .Stack _ => true
  | _ => false

/-- Is the operand an `Imm` immediate. -/
def operand_is_imm : AssemblyOperand → Bool
  | .Imm _ => true
  | _ => false

/-- No operand position of the instruction holds a `Pseudo`. -/
def instruction_pseudo_free : AssemblyInstruction → Bool
  | .Mov s d => !operand_is_pseudo s && !operand_is_pseudo d
  | .Unary _ o => !operand_is_pseudo o
  | .Binary _ s d => !operand_is_pseudo s && !operand_is_pseudo d
  | .Cmp l r => !operand_is_pseudo l && !operand_is_pseudo r
  | .Idiv o => !operand_is_pseudo o
  | .SetCC _ o => !operand_is_pseudo o
  | _ => true

/-- The final-AsmProgram invariants of the spec, per instruction: no
`Pseudo` operand; `Mov`, `Add`, `Sub`, `Cmp` never have two `Stack`
operands; `Cmp` never has an `Imm` right operand; `Mult` never has a
`Stack` destination; `Idiv` never has an `Imm` operand. -/
def final_instruction_ok : AssemblyInstruction → Bool
  | .Mov s d => !operand_is_pseudo s && !operand_is_pseudo d
      && !(operand_is_stack s && operand_is_stack d)
  | .Unary _ o => !operand_is_pseudo o
  | .Binary op s d => !operand_is_pseudo s && !operand_is_pseudo d
      && (match op with
          | .Add => !(operand_is_stack s && operand_is_stack d)
          | .Sub => !(operand_is_stack s && operand_is_stack d)
          | .Mult => !operand_is_stack d)
  | .Cmp l r => !operand_is_pseudo l && !operand_is_pseudo r
      && !(operand_is_stack l && operand_is_stack r) && !operand_is_imm r
  | .Idiv o => !operand_is_pseudo o && !operand_is_imm o
  | .SetCC _ o => !operand_is_pseudo o
  | _ => true

/-- `convert_pseudo_register` never leaves a `Pseudo` operand. -/
theorem convert_pseudo_register_not_pseudo (operand : AssemblyOperand)
    (m : List (String × Int)) (c : Int) :
    operand_is_pseudo (convert_pseudo_register operand m c).1 = false := by
  cases operand with
  | Pseudo identifier =>
    cases h : lookup_offset identifier m with
    | some offset => simp [convert_pseudo_register, h, operand_is_pseudo]
    | none => simp [convert_pseudo_register, h, operand_is_pseudo]
  | Imm v => simp [convert_pseudo_register, operand_is_pseudo]
  | Register r => simp [convert_pseudo_register, operand_is_pseudo]
  | Stack o => simp [convert_pseudo_register, operand_is_pseudo]

/-- After `replace_pseudo_in_instruction`, the instruction is
pseudo-free. -/
theorem replace_pseudo_in_instruction_pseudo_free (instruction : AssemblyInstruction)
    (m : List (String × Int)) (c : Int) :
    instruction_pseudo_free (replace_pseudo_in_instruction instruction m c).1 = true := by
  cases instruction with
  | Mov s d =>
    simp [replace_pseudo_in_instruction, instruction_pseudo_free,
          convert_pseudo_register_not_pseudo]
  | Unary op o =>
    simp [replace_pseudo_in_instruction, instruction_pseudo_free,
          convert_pseudo_register_not_pseudo]
  | Binary op s d =>
    simp [replace_pseudo_in_instruction, instruction_pseudo_free,
          convert_pseudo_register_not_pseudo]
  | Cmp l r =>
    simp [replace_pseudo_in_instruction, instruction_pseudo_free,
          convert_pseudo_register_not_pseudo]
  | Idiv o =>
    simp [replace_pseudo_in_instruction, instruction_pseudo_free,
          convert_pseudo_register_not_pseudo]
  | SetCC cc o =>
    simp [replace_pseudo_in_instruction, instruction_pseudo_free,
          convert_pseudo_register_not_pseudo]
  | Cdq => rfl
  | AllocateStack o => rfl
  | Jmp l => rfl
  | JmpCC cc l => rfl
  | Label l => rfl
  | Ret => rfl

/-- Every instruction coming out of the replacement walk is
pseudo-free (the spec's pass-2 post-condition). -/
theorem pseudoregister_replacement_go_pseudo_free (l : List AssemblyInstruction)
    (m : List (String × Int)) (c : Int) :
    ∀ i ∈ (pseudoregister_replacement_go l m c).1, instruction_pseudo_free i = true := by
  induction l generalizing m c with
  | nil => simp [pseudoregister_replacement_go]
  | cons j rest ih =>
    intro i hi
    simp only [pseudoregister_replacement_go, List.mem_cons] at hi
    rcases hi with h | h
    · rw [h]; exact replace_pseudo_in_instruction_pseudo_free j m c
    · exact ih _ _ i h

/-- The fixup of a pseudo-free instruction satisfies every final-program
invariant. -/
theorem fixup_asm_instruction_final_ok (i : AssemblyInstruction)
    (h : instruction_pseudo_free i = true) :
    (fixup_asm_instruction i).all final_instruction_ok = true := by
  cases i with
  | Mov s d =>
    cases s <;> cases d <;>
      simp_all [fixup_asm_instruction, final_instruction_ok, instruction_pseudo_free,
                operand_is_pseudo, operand_is_stack, operand_is_imm]
  | Binary op s d =>
    cases op <;> cases s <;> cases d <;>
      simp_all [fixup_asm_instruction, final_instruction_ok, instruction_pseudo_free,
                operand_is_pseudo, operand_is_stack, operand_is_imm]
  | Cmp l r =>
    cases l <;> cases r <;>
      simp_all [fixup_asm_instruction, final_instruction_ok, instruction_pseudo_free,
                operand_is_pseudo, operand_is_stack, operand_is_imm]
  | Idiv o =>
    cases o <;>
      simp_all [fixup_asm_instruction, final_instruction_ok, instruction_pseudo_free,
                operand_is_pseudo, operand_is_stack, operand_is_imm]
  | Unary op o =>
    cases o <;>
      simp_all [fixup_asm_instruction, final_instruction_ok, instruction_pseudo_free,
                operand_is_pseudo, operand_is_stack, operand_is_imm]
  | SetCC cc o =>
    cases o <;>
      simp_all [fixup_asm_instruction, final_instruction_ok, instruction_pseudo_free,
                operand_is_pseudo, operand_is_stack, operand_is_imm]
  | Cdq => rfl
  | AllocateStack o => rfl
  | Jmp lbl => rfl
  | JmpCC cc lbl => rfl
  | Label lbl => rfl
  | Ret => rfl

/-- The fixup pass of a pseudo-free instruction list satisfies every
final-program invariant. -/
theorem instruction_fixup_pass_final_ok (l : List AssemblyInstruction)
    (h : ∀ i ∈ l, instruction_pseudo_free i = true) :
    (instruction_fixup_pass l).all final_instruction_ok = true := by
  induction l with
  | nil => rfl
  | cons j rest ih =>
    simp only [instruction_fixup_pass, List.all_append]
    refine Bool.and_eq_true_iff.mpr ⟨?_, ?_⟩
    · exact fixup_asm_instruction_final_ok j (h j (by simp))
    · exact ih (fun i hi => h i (by simp [hi]))

/-- Core of claim C8 at the `convert_instructions` level. -/
theorem convert_instructions_final_ok (t : List TackyInstruction)
    (out : List AssemblyInstruction) (h : convert_instructions t = .ok out) :
    out.all final_instruction_ok = true := by
  cases hconv : instruction_conversion_pass t with
  | error e => simp [convert_instructions, hconv] at h
  | ok asm =>
    simp only [convert_instructions, hconv, Except.ok.injEq] at h
    subst h
    refine List.all_eq_true.mpr ?_
    intro i hi
    simp only [List.mem_cons] at hi
    rcases hi with h | h
    · rw [h]; rfl
    · exact List.all_eq_true.mp
        (instruction_fixup_pass_final_ok (pseudoregister_replacement_pass asm).1
          (pseudoregister_replacement_go_pseudo_free asm [] 0)) i h

/-- Claim C8.  Every assembly program produced by `convert_ast`
satisfies the final-program operand invariants on each instruction: no
`Pseudo` operand survives; `Mov`, `Add`, `Sub` and `Cmp` never keep two
`Stack` operands; `Cmp` never keeps an `Imm` right operand; `Mult` never
targets a `Stack` slot; `Idiv` never takes an `Imm` — and the fixup
rewrites introduce no new violation. -/
theorem C8_final_program_invariants (name : String) (t : List TackyInstruction)
    (name2 : String) (out : List AssemblyInstruction)
    (h : convert_ast (.Program (.Function name t))
      = .ok (.Program (.Function name2 out))) :
    out.all final_instruction_ok = true := by
  cases hci : convert_instructions t with
  | error e => simp [convert_ast, convert_function, hci] at h
  | ok asm2 =>
    simp only [convert_ast, convert_function, hci, Except.ok.injEq,
               AssemblyAst.Program.injEq, AssemblyFunction.Function.injEq] at h
    rw [← h.2]
    exact convert_instructions_final_ok t asm2 hci

/-- Witness for C8 at the codegen doc-test program (`return ~(-1)` with
two temporaries, exercising the Mov-stack-to-stack fixup). -/
theorem C8_witness :
    ([.AllocateStack (-8),
      .Mov (.Imm 1) (.Stack (-4)),
      .Unary .Neg (.Stack (-4)),
      .Mov (.Stack (-4)) (.Register .R10),
      .Mov (.Register .R10) (.Stack (-8)),
      .Unary .Not (.Stack (-8)),
      .Mov (.Stack (-8)) (.Register .AX),
      .Ret] : List AssemblyInstruction).all final_instruction_ok = true :=
  C8_final_program_invariants ("main")
    [.Unary .Negate (.Constant 1) (.Variable ("tmp.0")),
     .Unary .Complement (.Variable ("tmp.0")) (.Variable ("tmp.1")),
     .Return (.Variable ("tmp.1"))]
    ("main")
    [.AllocateStack (-8),
     .Mov (.Imm 1) (.Stack (-4)),
     .Unary .Neg (.Stack (-4)),
     .Mov (.Stack (-4)) (.Register .R10),
     .Mov (.Register .R10) (.Stack (-8)),
     .Unary .Not (.Stack (-8)),
     .Mov (.Stack (-8)) (.Register .AX),
     .Ret]
    rfl
